import Mathlib

/-!
Shallow embedding of the interactive page script (`script.js`), covering the
field validation engine (`validateField`, lines 594-648), the field label map
(`getFieldLabel`, lines 653-665), the submit handler (lines 763-800) and the
FAQ accordion / tab click handlers (lines 215-247, 268-293).

Strings are modelled as `List Char` (one entry per UTF-16 code unit of the
JavaScript string; all constants involved are in the BMP, where code units and
code points coincide).  Regular expressions are translated literal-by-literal
into executable boolean matchers with JavaScript backtracking semantics.
-/

set_option maxRecDepth 10000

namespace Script

/-- ECMAScript WhiteSpace and LineTerminator characters: the set removed by
`String.prototype.trim` and matched by the regex class `\s`. -/
def isJsWhitespace (c : Char) : Bool :=
  c == ' ' || c == '\t' || c == '\n' || c == '\r' ||
  c == Char.ofNat 0x0B || c == Char.ofNat 0x0C ||
  c == Char.ofNat 0xA0 || c == Char.ofNat 0x1680 ||
  (0x2000 ≤ c.toNat && c.toNat ≤ 0x200A) ||
  c == Char.ofNat 0x2028 || c == Char.ofNat 0x2029 ||
  c == Char.ofNat 0x202F || c == Char.ofNat 0x205F ||
  c == Char.ofNat 0x3000 || c == Char.ofNat 0xFEFF

/-- ECMAScript LineTerminator characters: the characters NOT matched by `.`
in a regular expression without the `s` flag. -/
def isLineTerm (c : Char) : Bool :=
  c == '\n' || c == '\r' || c == Char.ofNat 0x2028 || c == Char.ofNat 0x2029

/-- Model of `value.trim()`: remove ECMAScript whitespace from both ends. -/
def jsTrim (l : List Char) : List Char :=
  List.rdropWhile isJsWhitespace (l.dropWhile isJsWhitespace)

/-- Convenience conversion of a Lean string literal into the character-list
model of a JavaScript string. -/
def jstr (s : String) : List Char := s.data

/-- Model of `parseInt(value, 10)`: skip leading whitespace, read an optional
sign and then the longest prefix of decimal digits; `none` models `NaN`. -/
def parseIntB10 (l : List Char) : Option Int :=
  let w := l.dropWhile isJsWhitespace
  let signAndRest : Int × List Char :=
    match w with
    | '-' :: t => (-1, t)
    | '+' :: t => (1, t)
    | _ => (1, w)
  let ds := signAndRest.2.takeWhile Char.isDigit
  if ds.isEmpty then none
  else some (signAndRest.1 * ((ds.foldl (fun a c => a * 10 + (c.toNat - 48)) 0 : Nat) : Int))

def isAsciiLetter (c : Char) : Bool := ('a' ≤ c && c ≤ 'z') || ('A' ≤ c && c ≤ 'Z')

def isAsciiDigit (c : Char) : Bool := '0' ≤ c && c ≤ '9'

def isAlphaNum (c : Char) : Bool := isAsciiLetter c || isAsciiDigit c

/-- Character class `[a-zA-Z\s'-]` of the fullName regex. -/
def isNameChar (c : Char) : Bool :=
  isAsciiLetter c || isJsWhitespace c || c == Char.ofNat 39 || c == '-'

/-- Regex `/^[a-zA-Z\s'-]+$/` (script.js line 549). -/
def fullNamePattern (v : List Char) : Bool := !v.isEmpty && v.all isNameChar

/-- Character class `[a-zA-Z0-9._%+-]` of the email regex. -/
def isEmailLocalChar (c : Char) : Bool :=
  isAlphaNum c || c == '.' || c == '_' || c == '%' || c == '+' || c == '-'

/-- Character class `[a-zA-Z0-9.-]` of the email regex. -/
def isEmailDomainChar (c : Char) : Bool := isAlphaNum c || c == '.' || c == '-'

/-- Regex `/^[a-zA-Z0-9._%+-]+@[a-zA-Z0-9.-]+\.[a-zA-Z]{2,}$/` (line 554).
The local part runs to the first `@` (the local class excludes `@`); the part
after it must split as `domain ++ "." ++ tld` for some admissible split. -/
def emailPattern (v : List Char) : Bool :=
  let loc := v.takeWhile (fun c => !(c == '@'))
  match v.dropWhile (fun c => !(c == '@')) with
  | '@' :: dom =>
      !loc.isEmpty && loc.all isEmailLocalChar &&
      (List.range (dom.length + 1)).any (fun j =>
        decide (1 ≤ j) && (dom.take j).all isEmailDomainChar &&
        (match dom.drop j with
         | '.' :: t => decide (2 ≤ t.length) && t.all isAsciiLetter
         | _ => false))
  | _ => false

/-- Character class `[\d\s\-\(\)]` of the phone regex. -/
def isPhoneChar (c : Char) : Bool :=
  isAsciiDigit c || isJsWhitespace c || c == '-' || c == '(' || c == ')'

/-- The optional leading `[\+]?` of the phone regex: `+` is not in the body
class, so consuming it is forced exactly when it is present. -/
def stripPlus (v : List Char) : List Char :=
  match v with
  | '+' :: t => t
  | _ => v

/-- Regex `/^[\+]?[(]?[\d\s\-\(\)]{10,}$/` (line 559).  After the forced
optional `+`, the optional `(` gives two backtracking alternatives. -/
def phonePattern (v : List Char) : Bool :=
  let r := stripPlus v
  (decide (10 ≤ r.length) && r.all isPhoneChar) ||
  (match r with
   | c :: t => c == '(' && decide (10 ≤ t.length) && t.all isPhoneChar
   | [] => false)

/-- Character class `[@$!%*?&]` of the password regex. -/
def isPwSpecial (c : Char) : Bool :=
  c == '@' || c == '$' || c == '!' || c == '%' || c == '*' || c == '?' || c == '&'

/-- Character class `[A-Za-z\d@$!%*?&]` of the password regex. -/
def isPwChar (c : Char) : Bool := isAsciiLetter c || isAsciiDigit c || isPwSpecial c

/-- Regex `/^(?=.*[a-z])(?=.*[A-Z])(?=.*\d)(?=.*[@$!%*?&])[A-Za-z\d@$!%*?&]/`
(line 565).  Each lookahead scans `.*`, which stops at line terminators, so
the witnessing character must occur before the first line terminator; the
regex is not anchored at the end, so only the first character must belong to
the final class. -/
def passwordPattern (v : List Char) : Bool :=
  let seg := v.takeWhile (fun c => !isLineTerm c)
  seg.any (fun c => 'a' ≤ c && c ≤ 'z') && seg.any (fun c => 'A' ≤ c && c ≤ 'Z') &&
  seg.any isAsciiDigit && seg.any isPwSpecial &&
  (match v with | c :: _ => isPwChar c | [] => false)

/-- Character class `[-a-zA-Z0-9@:%._\+~#=]` of the website regex. -/
def isWebHostChar (c : Char) : Bool :=
  c == '-' || isAlphaNum c || c == '@' || c == ':' || c == '%' || c == '.' ||
  c == '_' || c == '+' || c == '~' || c == '#' || c == '='

/-- Character class `[a-zA-Z0-9()]` of the website regex. -/
def isWebTldChar (c : Char) : Bool := isAlphaNum c || c == '(' || c == ')'

/-- Character class `[-a-zA-Z0-9()@:%_\+.~#?&//=]` of the website regex. -/
def isWebTailChar (c : Char) : Bool :=
  c == '-' || isAlphaNum c || c == '(' || c == ')' || c == '@' || c == ':' ||
  c == '%' || c == '_' || c == '+' || c == '.' || c == '~' || c == '#' ||
  c == '?' || c == '&' || c == '/' || c == '='

/-- Regex word characters `[a-zA-Z0-9_]`, used by the `\b` assertion. -/
def isWordChar (c : Char) : Bool := isAlphaNum c || c == '_'

/-- The `\b` assertion between a preceding character and the remaining input:
holds when exactly one side is a word character. -/
def wordBoundary (prev : Char) (next : List Char) : Bool :=
  match next with
  | [] => isWordChar prev
  | d :: _ => isWordChar prev != isWordChar d

/-- Part of the website regex after `https?://`:
`(www\.)?[-a-zA-Z0-9@:%._\+~#=]{1,256}\.[a-zA-Z0-9()]{1,6}\b([-...]*)$`,
with an existential over the backtracking split points. -/
def websiteAfterScheme (w : List Char) : Bool :=
  (if w.take 4 == ['w', 'w', 'w', '.'] then [0, 4] else [0]).any (fun o =>
    let u := w.drop o
    (List.range (u.length + 1)).any (fun j =>
      decide (1 ≤ j) && decide (j ≤ 256) && (u.take j).all isWebHostChar &&
      (match u.drop j with
       | '.' :: rest =>
         (List.range (rest.length + 1)).any (fun k =>
           decide (1 ≤ k) && decide (k ≤ 6) && (rest.take k).all isWebTldChar &&
           (match (rest.take k).getLast? with
            | some b => wordBoundary b (rest.drop k) && (rest.drop k).all isWebTailChar
            | none => false))
       | _ => false)))

/-- Regex of line 580: `https?://` followed by `websiteAfterScheme`. -/
def websitePattern (v : List Char) : Bool :=
  match v with
  | 'h' :: 't' :: 't' :: 'p' :: 's' :: ':' :: '/' :: '/' :: r => websiteAfterScheme r
  | 'h' :: 't' :: 't' :: 'p' :: ':' :: '/' :: '/' :: r => websiteAfterScheme r
  | _ => false

/-- One entry of `validationRules` (script.js lines 544-589).  Absent keys of
the JavaScript object are `none`.  (The JavaScript truthiness tests on
`minLength`/`maxLength` coincide with presence tests for every rule in the
table, whose length bounds are all nonzero.) -/
structure Rule where
  required : Bool
  minLength : Option Nat := none
  maxLength : Option Nat := none
  pattern : Option (List Char → Bool) := none
  min : Option Int := none
  max : Option Int := none
  message : String

def fullNameRule : Rule :=
  { required := true, minLength := some 2, maxLength := some 50,
    pattern := some fullNamePattern,
    message := "Name must be 2-50 characters and contain only letters, spaces, hyphens, and apostrophes" }

def emailRule : Rule :=
  { required := true, pattern := some emailPattern,
    message := "Please enter a valid email address (example: user@domain.com)" }

def phoneRule : Rule :=
  { required := false, pattern := some phonePattern,
    message := "Please enter a valid phone number (at least 10 digits)" }

def passwordRule : Rule :=
  { required := true, minLength := some 8, pattern := some passwordPattern,
    message := "Password must be at least 8 characters with uppercase, lowercase, number, and special character (@$!%*?&)" }

def confirmPasswordRule : Rule :=
  { required := true, message := "Passwords do not match" }

def ageRule : Rule :=
  { required := false, min := some 13, max := some 120,
    message := "Age must be between 13 and 120 years" }

def websiteRule : Rule :=
  { required := false, pattern := some websitePattern,
    message := "Please enter a valid URL (include http:// or https://)" }

def messageRule : Rule :=
  { required := true, minLength := some 10, maxLength := some 500,
    message := "Message must be between 10 and 500 characters" }

/-- The `validationRules` table (script.js lines 544-589), as a lookup from
the field identifier. -/
def validationRules (f : String) : Option Rule :=
  if f == "fullName" then some fullNameRule
  else if f == "email" then some emailRule
  else if f == "phone" then some phoneRule
  else if f == "password" then some passwordRule
  else if f == "confirmPassword" then some confirmPasswordRule
  else if f == "age" then some ageRule
  else if f == "website" then some websiteRule
  else if f == "message" then some messageRule
  else none

/-- The `labels` object of `getFieldLabel` (script.js lines 654-663). -/
def fieldLabels : List (String × String) :=
  [("fullName", "Full Name"), ("email", "Email Address"), ("phone", "Phone Number"),
   ("password", "Password"), ("confirmPassword", "Confirm Password"), ("age", "Age"),
   ("website", "Website"), ("message", "Message")]

/-- `getFieldLabel` (script.js lines 653-665): `labels[fieldName] || fieldName`.
Every stored label is a nonempty (truthy) string, so `||` is a presence
fallback. -/
def getFieldLabel (f : String) : String := (fieldLabels.lookup f).getD f

/-- A validation verdict `{ isValid, message }`; an absent `message` property
is `none`. -/
structure VResult where
  isValid : Bool
  message : Option String := none
deriving DecidableEq

/-- `rules.minLength && value.length < rules.minLength` (line 615). -/
def minLengthFails (r : Rule) (v : List Char) : Bool :=
  match r.minLength with
  | some m => decide (v.length < m)
  | none => false

/-- `rules.maxLength && value.length > rules.maxLength` (line 620). -/
def maxLengthFails (r : Rule) (v : List Char) : Bool :=
  match r.maxLength with
  | some m => decide (m < v.length)
  | none => false

/-- `rules.pattern && !rules.pattern.test(value)` (line 625). -/
def patternFails (r : Rule) (v : List Char) : Bool :=
  match r.pattern with
  | some p => !(p v)
  | none => false

/-- The numeric range check of lines 630-637: runs when `min` or `max` is
declared; fails when `parseInt(value, 10)` is `NaN` or violates a bound. -/
def rangeFails (r : Rule) (v : List Char) : Bool :=
  (r.min.isSome || r.max.isSome) &&
  (match parseIntB10 v with
   | none => true
   | some n =>
     (match r.min with | some m => decide (n < m) | none => false) ||
     (match r.max with | some m => decide (m < n) | none => false))

/-- Body of `validateField` after the rule lookup (script.js lines 598-647).
`passwordValue` is the live value of the password input read by the
confirm-password comparison (line 641). -/
def validateWithRule (passwordValue : List Char) (fieldName : String) (rules : Rule)
    (value : List Char) : VResult :=
  if rules.required && (value.isEmpty || (jsTrim value).isEmpty) then
    { isValid := false, message := some (getFieldLabel fieldName ++ " is required") }
  else if value.isEmpty || (jsTrim value).isEmpty then
    { isValid := true }
  else if minLengthFails rules (jsTrim value) then
    { isValid := false, message := some rules.message }
  else if maxLengthFails rules (jsTrim value) then
    { isValid := false, message := some rules.message }
  else if patternFails rules (jsTrim value) then
    { isValid := false, message := some rules.message }
  else if rangeFails rules (jsTrim value) then
    { isValid := false, message := some rules.message }
  else if fieldName == "confirmPassword" && !(jsTrim value == passwordValue) then
    { isValid := false, message := some rules.message }
  else
    { isValid := true }

/-- `validateField(fieldName, value)` (script.js lines 594-648). -/
def validateField (passwordValue : List Char) (fieldName : String) (value : List Char) :
    VResult :=
  match validationRules fieldName with
  | none => { isValid := true }
  | some rules => validateWithRule passwordValue fieldName rules value

/-- First failing check of an ordered check list, with its message. -/
def firstFailure : List (Bool × String) → Option String
  | [] => none
  | (b, m) :: rest => if b then some m else firstFailure rest

/-- Specification-side evaluator for the claimed check order: required and
emptiness handling first, then minimum length, maximum length, pattern and
numeric range with first-failure short-circuit, then the confirm-password
comparison. -/
def specWithRule (passwordValue : List Char) (fieldName : String) (rules : Rule)
    (value : List Char) : VResult :=
  if rules.required && (value.isEmpty || (jsTrim value).isEmpty) then
    { isValid := false, message := some (getFieldLabel fieldName ++ " is required") }
  else if value.isEmpty || (jsTrim value).isEmpty then
    { isValid := true }
  else
    match firstFailure
        [(minLengthFails rules (jsTrim value), rules.message),
         (maxLengthFails rules (jsTrim value), rules.message),
         (patternFails rules (jsTrim value), rules.message),
         (rangeFails rules (jsTrim value), rules.message)] with
    | some m => { isValid := false, message := some m }
    | none =>
      if fieldName == "confirmPassword" && !(jsTrim value == passwordValue) then
        { isValid := false, message := some rules.message }
      else
        { isValid := true }

/-- Specification-side `validate` built from `specWithRule`. -/
def specValidate (passwordValue : List Char) (fieldName : String) (value : List Char) :
    VResult :=
  match validationRules fieldName with
  | none => { isValid := true }
  | some rules => specWithRule passwordValue fieldName rules value

/-- Current values of the eight declared form inputs (the `fields` object of
script.js lines 530-539). -/
structure FormState where
  fullName : List Char
  email : List Char
  phone : List Char
  password : List Char
  confirmPassword : List Char
  age : List Char
  website : List Char
  message : List Char

/-- `Object.keys(fields)` in insertion order (script.js lines 530-539). -/
def fieldNames : List String :=
  ["fullName", "email", "phone", "password", "confirmPassword", "age", "website", "message"]

/-- `fields[fieldName].value` for the declared field names. -/
def fieldValue (st : FormState) (f : String) : List Char :=
  if f == "fullName" then st.fullName
  else if f == "email" then st.email
  else if f == "phone" then st.phone
  else if f == "password" then st.password
  else if f == "confirmPassword" then st.confirmPassword
  else if f == "age" then st.age
  else if f == "website" then st.website
  else if f == "message" then st.message
  else []

/-- `validateField` as seen from the full form state: the only field value it
reads besides its argument is the live password value (line 641). -/
def validateFieldSt (st : FormState) (fieldName : String) (value : List Char) : VResult :=
  validateField st.password fieldName value

/-- The accumulation loop of the submit handler (script.js lines 771-790):
per field in declaration order, valid fields are appended to `formData` and
invalid fields to `errors`. -/
def collectResults (st : FormState) :
    List String → List (String × List Char) × List (String × Option String)
  | [] => ([], [])
  | f :: rest =>
    let r := validateField st.password f (fieldValue st f)
    let acc := collectResults st rest
    if r.isValid then ((f, fieldValue st f) :: acc.1, acc.2)
    else (acc.1, (f, r.message) :: acc.2)

/-- Data outcome of one submit event (script.js lines 763-800): the collected
`formData` payload and the error report, computed afresh from the current
field values. -/
def submitForm (st : FormState) : List (String × List Char) × List (String × Option String) :=
  collectResults st fieldNames

/-- A form state on which every field validates. -/
def demoState : FormState :=
  { fullName := jstr "Anne Marie"
    email := jstr "user@domain.com"
    phone := jstr ""
    password := jstr "Abcdef1!"
    confirmPassword := jstr "Abcdef1!"
    age := jstr ""
    website := jstr ""
    message := jstr "hello there, world" }

/-- `demoState` with exactly one failing field (a malformed email). -/
def demoStateBadEmail : FormState :=
  { demoState with email := jstr "bad-email" }

/-- `demoState` with every field other than the password changed. -/
def demoStateAlt : FormState :=
  { fullName := jstr "Someone Else"
    email := jstr "other@example.org"
    phone := jstr "0123456789"
    password := jstr "Abcdef1!"
    confirmPassword := jstr "nope"
    age := jstr "44"
    website := jstr ""
    message := jstr "a different message" }

/-- Number of items of a disclosure group currently flagged active. -/
def countActive : List (String × Bool) → Nat
  | [] => 0
  | p :: rest => (if p.2 then 1 else 0) + countActive rest

/-- FAQ accordion click handler (script.js lines 215-247) on a group state of
`(faq id, active flag)` pairs with distinct ids: if the clicked id has no
item, nothing changes; otherwise every other item is deactivated and the
clicked item is toggled against its previous flag. -/
def faqClick (st : List (String × Bool)) (c : String) : List (String × Bool) :=
  match st.lookup c with
  | none => st
  | some isActive =>
      st.map (fun p => if p.1 == c then (p.1, !isActive) else (p.1, false))

/-- Tab click handler (script.js lines 268-293): every tab is deactivated and
the clicked tab is activated, regardless of its previous flag. -/
def tabClick (st : List (String × Bool)) (c : String) : List (String × Bool) :=
  st.map (fun p => (p.1, p.1 == c))

theorem dropWhile_append_self {p : Char → Bool} {B u : List Char}
    (h : List.dropWhile p (B ++ u) = B ++ u) : List.dropWhile p B = B := by
  cases B with
  | nil => rfl
  | cons b bs =>
    rw [List.cons_append, List.dropWhile_cons] at h
    by_cases hb : p b = true
    · exfalso
      rw [if_pos hb] at h
      have hlen := (List.dropWhile_suffix (l := bs ++ u) p).length_le
      rw [h] at hlen
      simp at hlen
    · rw [Bool.not_eq_true] at hb
      simp [List.dropWhile_cons, hb]

theorem jsTrim_nil : jsTrim [] = [] := rfl

theorem jsTrim_idem (l : List Char) : jsTrim (jsTrim l) = jsTrim l := by
  unfold jsTrim
  have hAself : List.dropWhile isJsWhitespace (l.dropWhile isJsWhitespace) =
      l.dropWhile isJsWhitespace := List.dropWhile_idempotent _ _
  obtain ⟨t, ht⟩ :=
    List.dropWhile_suffix (l := (l.dropWhile isJsWhitespace).reverse) isJsWhitespace
  have hBA : List.rdropWhile isJsWhitespace (l.dropWhile isJsWhitespace) ++ t.reverse =
      l.dropWhile isJsWhitespace := by
    have h2 := congrArg List.reverse ht
    simpa [List.rdropWhile, List.reverse_append] using h2
  have hB : List.dropWhile isJsWhitespace
      (List.rdropWhile isJsWhitespace (l.dropWhile isJsWhitespace)) =
      List.rdropWhile isJsWhitespace (l.dropWhile isJsWhitespace) := by
    apply dropWhile_append_self (u := t.reverse)
    rw [hBA]
    exact hAself
  rw [hB, List.rdropWhile_idempotent]

theorem isEmpty_or_trim (v : List Char) :
    (v.isEmpty || (jsTrim v).isEmpty) = (jsTrim v).isEmpty := by
  cases v with
  | nil => rfl
  | cons a t => simp

theorem isEmpty_false_of_trim {v : List Char} (hv : jsTrim v ≠ []) :
    (v.isEmpty || (jsTrim v).isEmpty) = false := by
  rw [isEmpty_or_trim]
  cases hjt : jsTrim v with
  | nil => exact absurd hjt hv
  | cons a t => rfl

/-- C9: `validateField` never distinguishes a value from its trimmed value:
leading and trailing whitespace of the input changes neither the verdict nor
the message, because every check after the emptiness test runs on the trimmed
value, while the live password value is compared untrimmed on both sides. -/
theorem validateField_trim_invariant (pw : List Char) (f : String) (v : List Char) :
    validateField pw f v = validateField pw f (jsTrim v) := by
  unfold validateField
  cases validationRules f with
  | none => rfl
  | some r => simp only [validateWithRule, isEmpty_or_trim, jsTrim_idem, Bool.or_self]

/-- C8: `validateField` is a pure function of the field name, the value and
the live password value: two form states that agree on the password field
produce identical results for every field and value, whatever their other
fields hold. -/
theorem validateField_depends_only_on_password (s₁ s₂ : FormState)
    (h : s₁.password = s₂.password) (f : String) (v : List Char) :
    validateFieldSt s₁ f v = validateFieldSt s₂ f v := by
  unfold validateFieldSt
  rw [h]

theorem validateField_depends_only_on_password_witness :
    validateFieldSt demoState "confirmPassword" (jstr "Abcdef1!") =
    validateFieldSt demoStateAlt "confirmPassword" (jstr "Abcdef1!") :=
  validateField_depends_only_on_password demoState demoStateAlt rfl "confirmPassword"
    (jstr "Abcdef1!")

/-- C2: a field whose rule is not marked required validates successfully on
every value that is empty or trims to empty, regardless of the rule's other
constraints. -/
theorem nonRequired_empty_valid (f : String) (r : Rule) (hr : validationRules f = some r)
    (hreq : r.required = false) (pw v : List Char) (hv : jsTrim v = []) :
    validateField pw f v = { isValid := true, message := none } := by
  simp [validateField, hr, validateWithRule, hreq, hv]

theorem nonRequired_empty_valid_witness :
    validateField [] "phone" (jstr "") = { isValid := true, message := none } :=
  nonRequired_empty_valid "phone" phoneRule rfl rfl [] (jstr "") rfl

theorem confirm_compute (pw v : List Char) (hv : jsTrim v ≠ []) :
    validateField pw "confirmPassword" v =
      if jsTrim v = pw then { isValid := true, message := none }
      else { isValid := false, message := some "Passwords do not match" } := by
  have hE : (v.isEmpty || (jsTrim v).isEmpty) = false := isEmpty_false_of_trim hv
  have hstep : validateField pw "confirmPassword" v =
      validateWithRule pw "confirmPassword" confirmPasswordRule v := rfl
  rw [hstep]
  unfold validateWithRule
  rw [hE]
  by_cases heq : jsTrim v = pw <;>
    simp [confirmPasswordRule, minLengthFails, maxLengthFails, patternFails, rangeFails, heq]

/-- C3: for a value of the confirm-password field that passes the generic
checks (its trimmed value is nonempty), the result is valid exactly when the
trimmed value equals the live password value; a mismatch fails with the
rule's configured message. -/
theorem confirmPassword_cross_field (pw v : List Char) (hv : jsTrim v ≠ []) :
    (validateField pw "confirmPassword" v = { isValid := true, message := none } ↔
      jsTrim v = pw) ∧
    (jsTrim v ≠ pw →
      validateField pw "confirmPassword" v =
        { isValid := false, message := some "Passwords do not match" }) := by
  have hc := confirm_compute pw v hv
  by_cases heq : jsTrim v = pw
  · rw [if_pos heq] at hc
    exact ⟨⟨fun _ => heq, fun _ => hc⟩, fun hne => absurd heq hne⟩
  · rw [if_neg heq] at hc
    constructor
    · constructor
      · intro hvalid
        rw [hc] at hvalid
        exact absurd (congrArg VResult.isValid hvalid) (by simp)
      · intro h
        exact absurd h heq
    · intro _
      exact hc

theorem withRule_eq_spec (pw : List Char) (f : String) (r : Rule) (v : List Char) :
    validateWithRule pw f r v = specWithRule pw f r v := by
  unfold validateWithRule specWithRule
  simp only [firstFailure]
  by_cases h1 : minLengthFails r (jsTrim v) = true <;>
  by_cases h2 : maxLengthFails r (jsTrim v) = true <;>
  by_cases h3 : patternFails r (jsTrim v) = true <;>
  by_cases h4 : rangeFails r (jsTrim v) = true <;>
  simp [h1, h2, h3, h4]

/-- C1: for every field with a declared rule and every non-empty value,
`validateField` agrees with the specification-side evaluator that applies the
checks in the stated fixed order with first-failure short-circuit: required
and emptiness handling first, then minimum length, maximum length, pattern
and numeric range (the range check parses the trimmed value as a base-10
integer and fails exactly on a failed parse or a value outside the declared
bounds), then the confirm-password comparison. -/
theorem validateField_matches_spec_order (pw : List Char) (f : String) (v : List Char)
    (hrule : (validationRules f).isSome = true) (hv : v ≠ []) :
    validateField pw f v = specValidate pw f v := by
  unfold validateField specValidate
  cases validationRules f with
  | none => rfl
  | some r => exact withRule_eq_spec pw f r v

theorem validateField_matches_spec_order_witness :
    (validationRules "age").isSome = true ∧ jstr "12" ≠ [] ∧
    validateField [] "age" (jstr "12") = specValidate [] "age" (jstr "12") :=
  ⟨rfl, by decide, validateField_matches_spec_order [] "age" (jstr "12") rfl (by decide)⟩

/-- C4: a result carries a message only on failure; a required field with
blank trimmed value fails with exactly the label-based "is required" message;
every other failure carries the configured rule message verbatim; and the
label lookup falls back to the raw field identifier when no entry exists. -/
theorem message_only_on_failure (pw : List Char) (f : String) (v : List Char) :
    ((validateField pw f v).isValid = true → (validateField pw f v).message = none) ∧
    (∀ r : Rule, validationRules f = some r → r.required = true → jsTrim v = [] →
      validateField pw f v =
        { isValid := false, message := some (getFieldLabel f ++ " is required") }) ∧
    (∀ r : Rule, validationRules f = some r → (r.required = true → jsTrim v ≠ []) →
      (validateField pw f v).isValid = false →
      (validateField pw f v).message = some r.message) ∧
    (fieldLabels.lookup f = none → getFieldLabel f = f) := by
  refine ⟨?_, ?_, ?_, ?_⟩
  · unfold validateField
    cases validationRules f with
    | none => intro _; rfl
    | some r =>
      intro h
      unfold validateWithRule at h ⊢
      split_ifs at h ⊢ <;> simp_all
      all_goals split_ifs at h ⊢ <;> simp_all
  · intro r hr hreq hv
    simp [validateField, hr, validateWithRule, hreq, hv]
  · intro r hr hcond hinv
    have hstep : validateField pw f v = validateWithRule pw f r v := by
      unfold validateField
      rw [hr]
    rw [hstep] at hinv ⊢
    unfold validateWithRule at hinv ⊢
    by_cases hreq : r.required = true
    · have hE : (v.isEmpty || (jsTrim v).isEmpty) = false := isEmpty_false_of_trim (hcond hreq)
      split_ifs at hinv ⊢ <;> simp_all
    · rw [Bool.not_eq_true] at hreq
      split_ifs at hinv ⊢ <;> simp_all
  · intro h
    simp [getFieldLabel, h]

theorem message_only_on_failure_witness :
    validateField [] "fullName" (jstr "") =
      { isValid := false, message := some "Full Name is required" } := by
  have h := (message_only_on_failure [] "fullName" (jstr "")).2.1 fullNameRule rfl rfl rfl
  rw [h]
  decide

/-- C6 counterexample: ten hyphens pass the phone rule although they contain
no digit at all — the regex requires ten characters of the class
digits/whitespace/hyphens/parens, not ten digits. -/
theorem phone_digit_claim_counterexample :
    (validateField [] "phone" (jstr "----------")).isValid = true ∧
    ((jstr "----------").filter isAsciiDigit).length = 0 := by
  decide

theorem phonePattern_shape (w : List Char) (h : phonePattern w = true) :
    10 ≤ (stripPlus w).length ∧ (stripPlus w).all isPhoneChar = true := by
  unfold phonePattern at h
  rw [Bool.or_eq_true] at h
  rcases h with h | h
  · rw [Bool.and_eq_true] at h
    exact ⟨by simpa using h.1, h.2⟩
  · cases hs : stripPlus w with
    | nil => rw [hs] at h; simp at h
    | cons a t =>
      rw [hs] at h
      simp only [Bool.and_eq_true, beq_iff_eq, decide_eq_true_eq] at h
      obtain ⟨⟨ha, hlen⟩, hall⟩ := h
      subst ha
      refine ⟨by simp; omega, ?_⟩
      simp [List.all_cons, hall, isPhoneChar]

/-- C6 (amended): a phone value is accepted only when it is blank (the field
is optional) or its trimmed value is an optional leading plus followed by at
least ten characters, each a digit, whitespace, hyphen or parenthesis. -/
theorem phone_valid_shape (pw v : List Char)
    (h : (validateField pw "phone" v).isValid = true) :
    jsTrim v = [] ∨
    (10 ≤ (stripPlus (jsTrim v)).length ∧ (stripPlus (jsTrim v)).all isPhoneChar = true) := by
  by_cases hv : jsTrim v = []
  · exact Or.inl hv
  · right
    apply phonePattern_shape
    by_cases hpat : phonePattern (jsTrim v) = true
    · exact hpat
    · exfalso
      rw [Bool.not_eq_true] at hpat
      have hE : (v.isEmpty || (jsTrim v).isEmpty) = false := isEmpty_false_of_trim hv
      have hstep : validateField pw "phone" v = validateWithRule pw "phone" phoneRule v := rfl
      rw [hstep] at h
      unfold validateWithRule at h
      rw [hE] at h
      simp [phoneRule, minLengthFails, maxLengthFails, patternFails, rangeFails, hpat] at h

theorem phone_valid_shape_witness :
    jsTrim (jstr "0123456789") = [] ∨
    (10 ≤ (stripPlus (jsTrim (jstr "0123456789"))).length ∧
     (stripPlus (jsTrim (jstr "0123456789"))).all isPhoneChar = true) :=
  phone_valid_shape [] (jstr "0123456789") (by decide)

/-- C7 counterexample: a whitespace-only age value is non-empty, parses to
`NaN` after trimming, and is nevertheless accepted, because the blankness
test precedes the numeric range check for the optional age field. -/
theorem age_blank_counterexample :
    (validateField [] "age" (jstr " ")).isValid = true ∧
    parseIntB10 (jsTrim (jstr " ")) = none := by
  decide

/-- C7 (amended): for every value whose trimmed form is nonempty, the age
field fails exactly when `parseInt(value, 10)` of the trimmed value is
not-a-number or the parsed integer lies outside the range 13 to 120. -/
theorem age_range_iff (pw v : List Char) (hv : jsTrim v ≠ []) :
    (validateField pw "age" v).isValid = false ↔
    (parseIntB10 (jsTrim v) = none ∨
     ∃ n : Int, parseIntB10 (jsTrim v) = some n ∧ (n < 13 ∨ 120 < n)) := by
  have hE : (v.isEmpty || (jsTrim v).isEmpty) = false := isEmpty_false_of_trim hv
  have hstep : validateField pw "age" v = validateWithRule pw "age" ageRule v := rfl
  rw [hstep]
  unfold validateWithRule
  rw [hE]
  cases hp : parseIntB10 (jsTrim v) with
  | none =>
    simp [ageRule, minLengthFails, maxLengthFails, patternFails, rangeFails, hp]
  | some n =>
    by_cases h13 : n < 13
    · simp [ageRule, minLengthFails, maxLengthFails, patternFails, rangeFails, hp, h13]
    · by_cases h120 : 120 < n
      · simp [ageRule, minLengthFails, maxLengthFails, patternFails, rangeFails, hp, h13, h120]
      · simp [ageRule, minLengthFails, maxLengthFails, patternFails, rangeFails, hp, h13, h120]

theorem age_range_iff_witness :
    (validateField [] "age" (jstr "12")).isValid = false ∧
    (validateField [] "age" (jstr "121")).isValid = false ∧
    (validateField [] "age" (jstr "13")).isValid = true :=
  ⟨(age_range_iff [] (jstr "12") (by decide)).mpr
      (Or.inr ⟨12, by decide, Or.inl (by decide)⟩),
   (age_range_iff [] (jstr "121") (by decide)).mpr
      (Or.inr ⟨121, by decide, Or.inr (by decide)⟩),
   by decide⟩

theorem collectResults_all_valid (st : FormState) (names : List String)
    (h : ∀ f ∈ names, (validateField st.password f (fieldValue st f)).isValid = true) :
    collectResults st names = (names.map (fun f => (f, fieldValue st f)), []) := by
  induction names with
  | nil => rfl
  | cons g rest ih =>
    have hg := h g (List.mem_cons_self g rest)
    have hrest := fun x hx => h x (List.mem_cons_of_mem g hx)
    simp [collectResults, hg, ih hrest]

theorem collectResults_one_invalid (st : FormState) (names : List String) (f₀ : String)
    (hnd : names.Nodup) (hmem : f₀ ∈ names)
    (hbad : (validateField st.password f₀ (fieldValue st f₀)).isValid = false)
    (hrest : ∀ f ∈ names, f ≠ f₀ → (validateField st.password f (fieldValue st f)).isValid = true) :
    collectResults st names =
      ((names.filter (fun f => !(f == f₀))).map (fun f => (f, fieldValue st f)),
       [(f₀, (validateField st.password f₀ (fieldValue st f₀)).message)]) := by
  induction names with
  | nil => simp at hmem
  | cons g rest ih =>
    rw [List.nodup_cons] at hnd
    by_cases hg : g = f₀
    · subst hg
      have hnotin : g ∉ rest := hnd.1
      have hallrest : ∀ f ∈ rest, (validateField st.password f (fieldValue st f)).isValid = true := by
        intro x hx
        exact hrest x (List.mem_cons_of_mem g hx) (fun hxeq => hnotin (hxeq ▸ hx))
      have hfilter : rest.filter (fun f => !(f == g)) = rest := by
        apply List.filter_eq_self.mpr
        intro x hx
        have hne : x ≠ g := fun hxe => hnotin (hxe ▸ hx)
        simp [hne]
      simp [collectResults, hbad, collectResults_all_valid st rest hallrest,
        List.filter_cons, hfilter]
    · have hgvalid := hrest g (List.mem_cons_self g rest) hg
      have hmem2 : f₀ ∈ rest := by
        rcases List.mem_cons.mp hmem with h | h
        · exact absurd h.symm hg
        · exact h
      have hres := ih hnd.2 hmem2
        (fun x hx hne => hrest x (List.mem_cons_of_mem g hx) hne)
      simp [collectResults, hgvalid, hres, List.filter_cons, hg]

/-- C5: the submit handler re-validates every declared field from the current
field values; when every field passes, the error report is empty and the
payload lists exactly the declared field names, each with its value; when
exactly one field fails, the error report is exactly that field with its
failure message, and the payload holds every other field with its own
independently computed value. -/
theorem submit_report (st : FormState) :
    ((∀ f ∈ fieldNames, (validateField st.password f (fieldValue st f)).isValid = true) →
      submitForm st = (fieldNames.map (fun f => (f, fieldValue st f)), [])) ∧
    (∀ f₀ ∈ fieldNames, (validateField st.password f₀ (fieldValue st f₀)).isValid = false →
      (∀ f ∈ fieldNames, f ≠ f₀ → (validateField st.password f (fieldValue st f)).isValid = true) →
      submitForm st =
        ((fieldNames.filter (fun f => !(f == f₀))).map (fun f => (f, fieldValue st f)),
         [(f₀, (validateField st.password f₀ (fieldValue st f₀)).message)])) := by
  constructor
  · intro h
    exact collectResults_all_valid st fieldNames h
  · intro f₀ hmem hbad hrest
    exact collectResults_one_invalid st fieldNames f₀ (by decide) hmem hbad hrest

theorem submit_report_witness :
    submitForm demoState = (fieldNames.map (fun f => (f, fieldValue demoState f)), []) ∧
    submitForm demoStateBadEmail =
      ((fieldNames.filter (fun f => !(f == "email"))).map
          (fun f => (f, fieldValue demoStateBadEmail f)),
       [("email",
         (validateField demoStateBadEmail.password "email"
           (fieldValue demoStateBadEmail "email")).message)]) :=
  ⟨(submit_report demoState).1 (by decide),
   (submit_report demoStateBadEmail).2 "email" (by decide) (by decide) (by decide)⟩

theorem confirmPassword_cross_field_witness :
    validateField (jstr "Abcdef1!") "confirmPassword" (jstr "Abcdef1!") =
      { isValid := true, message := none } ∧
    validateField (jstr "Abcdef1!") "confirmPassword" (jstr "different") =
      { isValid := false, message := some "Passwords do not match" } :=
  ⟨(confirmPassword_cross_field (jstr "Abcdef1!") (jstr "Abcdef1!") (by decide)).1.mpr
      (by decide),
   (confirmPassword_cross_field (jstr "Abcdef1!") (jstr "different") (by decide)).2
      (by decide)⟩

theorem countActive_cons (p : String × Bool) (l : List (String × Bool)) :
    countActive (p :: l) = (if p.2 then 1 else 0) + countActive l := rfl

theorem countActive_keyed_zero (l : List (String × Bool)) (c : String) (b : Bool)
    (h : ∀ p ∈ l, (p.1 == c) = false) :
    countActive (l.map (fun p => if p.1 == c then (p.1, b) else (p.1, false))) = 0 := by
  induction l with
  | nil => rfl
  | cons q rest ih =>
    have hq := h q (List.mem_cons_self q rest)
    have hrest := ih (fun x hx => h x (List.mem_cons_of_mem q hx))
    rw [List.map_cons, countActive_cons, hrest]
    simp [hq]

theorem countActive_keyed_le (l : List (String × Bool)) (c : String) (b : Bool)
    (hnd : (l.map Prod.fst).Nodup) :
    countActive (l.map (fun p => if p.1 == c then (p.1, b) else (p.1, false))) ≤
      if b then 1 else 0 := by
  induction l with
  | nil => simp [countActive]
  | cons q rest ih =>
    rw [List.map_cons, List.nodup_cons] at hnd
    rw [List.map_cons, countActive_cons]
    by_cases hq : (q.1 == c) = true
    · have hc : q.1 = c := eq_of_beq hq
      have hzero : countActive
          (rest.map (fun p => if p.1 == c then (p.1, b) else (p.1, false))) = 0 := by
        apply countActive_keyed_zero
        intro x hx
        have hxne : x.1 ≠ c := by
          intro he
          exact hnd.1 (by
            rw [hc, ← he]
            exact List.mem_map_of_mem Prod.fst hx)
        simp [hxne]
      rw [hzero]
      simp [hq]
    · rw [Bool.not_eq_true] at hq
      have hhead : (if ((fun p => if p.1 == c then (p.1, b) else (p.1, false)) q).2
          then 1 else 0) = 0 := by simp [hq]
      rw [hhead, Nat.zero_add]
      exact ih hnd.2

theorem lookup_of_mem_keys (l : List (String × Bool)) (c : String)
    (h : c ∈ l.map Prod.fst) : ∃ b, l.lookup c = some b := by
  induction l with
  | nil => simp at h
  | cons q rest ih =>
    rw [List.map_cons] at h
    by_cases hq : (c == q.1) = true
    · exact ⟨q.2, by simp [List.lookup, hq]⟩
    · have hmem : c ∈ rest.map Prod.fst := by
        rcases List.mem_cons.mp h with he | he
        · exact absurd (beq_iff_eq.mpr he) hq
        · exact he
      obtain ⟨b, hb⟩ := ih hmem
      exact ⟨b, by simp [List.lookup, hq, hb]⟩

theorem tab_lookup_active (l : List (String × Bool)) (t : String)
    (h : t ∈ l.map Prod.fst) :
    (l.map (fun p => (p.1, p.1 == t))).lookup t = some true := by
  induction l with
  | nil => simp at h
  | cons q rest ih =>
    rw [List.map_cons] at h
    by_cases hq : (t == q.1) = true
    · have he : q.1 = t := (eq_of_beq hq).symm
      simp [List.lookup, hq, he]
    · have hmem : t ∈ rest.map Prod.fst := by
        rcases List.mem_cons.mp h with he | he
        · exact absurd (beq_iff_eq.mpr he) hq
        · exact he
      simp [List.lookup, hq, ih hmem]

theorem faqClick_found (st : List (String × Bool)) (c : String) (a : Bool)
    (ha : st.lookup c = some a) :
    faqClick st c = st.map (fun p => if p.1 == c then (p.1, !a) else (p.1, false)) := by
  unfold faqClick
  rw [ha]

theorem tabClick_eq_keyed (l : List (String × Bool)) (t : String) :
    tabClick l t = l.map (fun p => if p.1 == t then (p.1, true) else (p.1, false)) := by
  unfold tabClick
  apply List.map_congr_left
  intro p _
  by_cases hp : (p.1 == t) = true
  · simp [hp]
  · rw [Bool.not_eq_true] at hp
    simp [hp]

/-- C10: on a disclosure group whose item ids are distinct, a click on an
existing item leaves at most one item active; the accordion deactivates a
clicked item that was already active (leaving zero active), while a tab
click always leaves the clicked tab active. -/
theorem disclosure_exclusivity :
    (∀ (faq : List (String × Bool)) (c : String), (faq.map Prod.fst).Nodup →
      c ∈ faq.map Prod.fst →
      countActive (faqClick faq c) ≤ 1 ∧
      (faq.lookup c = some true → countActive (faqClick faq c) = 0)) ∧
    (∀ (tabs : List (String × Bool)) (t : String), (tabs.map Prod.fst).Nodup →
      countActive (tabClick tabs t) ≤ 1 ∧
      (t ∈ tabs.map Prod.fst → (tabClick tabs t).lookup t = some true)) := by
  constructor
  · intro faq c hnd hmem
    obtain ⟨a, ha⟩ := lookup_of_mem_keys faq c hmem
    constructor
    · rw [faqClick_found faq c a ha]
      calc countActive (faq.map (fun p => if p.1 == c then (p.1, !a) else (p.1, false))) ≤
          if !a then 1 else 0 := countActive_keyed_le faq c (!a) hnd
        _ ≤ 1 := by cases a <;> simp
    · intro htrue
      rw [ha] at htrue
      have haa : a = true := Option.some.inj htrue
      subst haa
      rw [faqClick_found faq c true ha]
      have hle := countActive_keyed_le faq c (!true) hnd
      have hbound : (if !true then 1 else 0) = 0 := rfl
      rw [hbound] at hle
      omega
  · intro tabs t hnd
    constructor
    · rw [tabClick_eq_keyed]
      calc countActive (tabs.map (fun p => if p.1 == t then (p.1, true) else (p.1, false))) ≤
          if true then 1 else 0 := countActive_keyed_le tabs t true hnd
        _ ≤ 1 := by simp
    · intro hmem
      exact tab_lookup_active tabs t hmem

theorem disclosure_exclusivity_witness :
    countActive (faqClick [("1", false), ("2", true), ("3", false)] "2") = 0 ∧
    (tabClick [("a", false), ("b", true)] "a").lookup "a" = some true :=
  ⟨(disclosure_exclusivity.1 [("1", false), ("2", true), ("3", false)] "2"
      (by decide) (by decide)).2 (by decide),
   (disclosure_exclusivity.2 [("a", false), ("b", true)] "a" (by decide)).2 (by decide)⟩

end Script
